import Mathlib

/-!
# Verification of the day-4 A2A routing agent (`src/day-4/main.py`)

This file embeds, shallowly, the pure routing logic of the FastAPI agent in
`day-4/main.py`: the `@agent-id` mention parser, the message forwarder
(`send_message_to_agent`), the registry refresh (`fetch_agents_from_registry`),
explicit registration (`register_agent`), the LLM-backed agent selector
(`select_best_agent`) and the `/a2a` endpoint handler (`a2a_endpoint`).

Conventions of the embedding:
* text is modelled as `String` / `List Char`; Python regular-expression and
  string operations are modelled by executable character-list functions
  (ASCII approximations of the Unicode-aware Python `\w`, `\s`, `lower`);
* JSON values are modelled by the inductive `JVal`; Python `dict.get`,
  truthiness and `or`-chaining are modelled explicitly;
* the network is an oracle: an outbound HTTP POST is a function argument
  `transport : PostCall → HttpResult`, and the registry response is an
  `Except String JVal` argument (`.error` = unreachable / non-2xx / bad JSON);
* functions that mutate the module-global `KNOWN_AGENTS` dict instead take and
  return a `Directory` (an association list, insertion ordered like a Python
  dict, update-in-place on existing keys);
* Python exceptions caught by the `try/except` blocks of the code are modelled by
  the branch the handler takes; wall-clock timestamps and `print` output are
  not modelled.
-/

namespace DayFour

/-- Model of Python regex `\w` and `-` (the class `[\w-]` of the mention
pattern `@([\w-]+)`), restricted to ASCII: letters, digits, underscore,
hyphen. -/
def isMentionChar (c : Char) : Bool :=
  c.isAlphanum || c = '_' || c = '-'

/-- Model of Python regex `\s` / `str.strip` whitespace, restricted to ASCII. -/
def pyIsSpace (c : Char) : Bool :=
  c = ' ' || c = '\t' || c = '\n' || c = '\x0d' || c = '\x0b' || c = '\x0c'

/-- Fuel-indexed scan modelling `re.findall` of the pattern `@([\w-]+)`: at each
position, an `@` followed by a nonempty maximal run of `[\w-]` characters
yields that run as a capture, and scanning resumes after the run
(non-overlapping matches, as `findall` does).  The fuel is the length of the
remaining input; it only ever decreases strictly, so `text.length` fuel is
always enough. -/
def findMentionsFuel : Nat → List Char → List (List Char)
  | 0, _ => []
  | _ + 1, [] => []
  | fuel + 1, c :: rest =>
    if c = '@' ∧ rest.takeWhile isMentionChar ≠ [] then
      rest.takeWhile isMentionChar ::
        findMentionsFuel fuel (rest.drop (rest.takeWhile isMentionChar).length)
    else findMentionsFuel fuel rest

/-- All `@([\w-]+)` captures of a character list, in order. -/
def findMentions (text : List Char) : List (List Char) :=
  findMentionsFuel text.length text

/-- Embedding of `extract_agent_mentions` (main.py:1085): the list of
`@agent-id` mentions of `text`. -/
def extract_agent_mentions (text : String) : List String :=
  (findMentions text.data).map String.mk

/-- Model of `re.sub('@' + target + r'\s*', '', message, count=1)` for a
`target` made of `[\w-]` characters: delete the leftmost occurrence of
`'@' ++ target` together with the whitespace immediately following it. -/
def subFirst (target : List Char) : List Char → List Char
  | [] => []
  | c :: rest =>
    if c = '@' ∧ target.isPrefixOf rest then
      (rest.drop target.length).dropWhile pyIsSpace
    else c :: subFirst target rest

/-- Core of `parse_a2a_request` on character lists: first mention (if any) as
the target, and the message with that mention deleted once. -/
def parseCore (message : List Char) : Option (List Char) × List Char :=
  match findMentions message with
  | [] => (none, message)
  | t :: _ => (some t, subFirst t message)

/-- Embedding of `parse_a2a_request` (main.py:1100): extract the target agent
and the message without its mention. -/
def parse_a2a_request (message : String) : Option String × String :=
  match parseCore message.data with
  | (t, cleaned) => (t.map String.mk, String.mk cleaned)

/-- Executable substring test: does `pat` occur contiguously in `l`?
(Model of Python `pat in s`.) -/
def listContains (pat : List Char) : List Char → Bool
  | [] => pat.isEmpty
  | c :: rest => pat.isPrefixOf (c :: rest) || listContains pat rest

/-- Python `pat in s` on strings. -/
def pyContains (s pat : String) : Bool :=
  listContains pat.data s.data

end DayFour

namespace DayFour

/-! ## JSON values and Python dict semantics -/

/-- Model of a parsed JSON value (Python object as produced by
`response.json()` / `json.loads`). Numbers are modelled as integers; no
claim involves fractional numbers. -/
inductive JVal where
  | null
  | bool (b : Bool)
  | num (n : Int)
  | str (s : String)
  | arr (elems : List JVal)
  | obj (fields : List (String × JVal))

/-- Python truthiness of a JSON value (`if not x`). -/
def pyTruthy : JVal → Bool
  | .null => false
  | .bool b => b
  | .num n => n != 0
  | .str s => !s.isEmpty
  | .arr l => !l.isEmpty
  | .obj f => !f.isEmpty

/-- Python `x or y`: `x` if truthy, else `y`. -/
def pyOr (x y : JVal) : JVal := if pyTruthy x then x else y

/-- Python `d[key]` lookup on a dict modelled as an association list
(first binding wins; Python dicts have unique keys). -/
def dictFind (fields : List (String × JVal)) (key : String) : Option JVal :=
  (fields.find? (fun p => p.1 == key)).map (·.2)

/-- Python `d.get(key, default)`. -/
def dictGetD (fields : List (String × JVal)) (key : String) (default : JVal) : JVal :=
  match dictFind fields key with
  | some v => v
  | none => default

/-- Whether a JSON value is an object (Python dict). -/
def isObj : JVal → Bool
  | .obj _ => true
  | _ => false

/-- Python `v == s` for a string literal `s`: true only when `v` is an equal
string. -/
def jeqStr (v : JVal) (s : String) : Bool :=
  match v with
  | .str t => t == s
  | _ => false

/-- Python type name of a JSON value, as it appears in runtime error
messages. -/
def pyTypeName : JVal → String
  | .null => "NoneType"
  | .bool _ => "bool"
  | .num _ => "int"
  | .str _ => "str"
  | .arr _ => "list"
  | .obj _ => "dict"

/-- Comma-separated join of character lists. -/
def interJoin (sep : List Char) : List (List Char) → List Char
  | [] => []
  | [x] => x
  | x :: y :: xs => x ++ sep ++ interJoin sep (y :: xs)

mutual

/-- Model of Python `repr` for JSON values (as used inside containers by
`str`). -/
def pyRepr : JVal → String
  | .null => "None"
  | .bool true => "True"
  | .bool false => "False"
  | .num n => toString n
  | .str s => "\x27" ++ s ++ "\x27"
  | .arr l => "[" ++ String.mk (interJoin [',', ' '] (pyReprList l)) ++ "]"
  | .obj f => "\x7b" ++ String.mk (interJoin [',', ' '] (pyReprFields f)) ++ "\x7d"

def pyReprList : List JVal → List (List Char)
  | [] => []
  | v :: vs => (pyRepr v).data :: pyReprList vs

def pyReprFields : List (String × JVal) → List (List Char)
  | [] => []
  | (k, v) :: fs =>
    ('\x27' :: k.data ++ '\x27' :: ':' :: ' ' :: (pyRepr v).data) :: pyReprFields fs

end

/-- Model of Python `str` for JSON values: the string itself for strings,
`repr`-style rendering otherwise. -/
def pyStr : JVal → String
  | .str s => s
  | v => pyRepr v

/-! ## Python string operations -/

/-- Python `s.endswith(t)`. -/
def pyEndsWith (s t : String) : Bool := t.data.isSuffixOf s.data

/-- Fuel-indexed model of Python `s.replace(pat, repl)` (every occurrence,
left to right, non-overlapping), for nonempty `pat`; input length is always
enough fuel. -/
def replaceAllFuel (pat repl : List Char) : Nat → List Char → List Char
  | 0, l => l
  | _ + 1, [] => []
  | fuel + 1, c :: rest =>
    if pat ≠ [] ∧ pat.isPrefixOf (c :: rest) then
      repl ++ replaceAllFuel pat repl fuel ((c :: rest).drop pat.length)
    else c :: replaceAllFuel pat repl fuel rest

/-- Python `s.replace(pat, repl)` for nonempty `pat`. -/
def pyReplace (s pat repl : String) : String :=
  String.mk (replaceAllFuel pat.data repl.data s.data.length s.data)

/-- Python `s.rstrip('/')`. -/
def pyRstripSlash (s : String) : String :=
  String.mk ((s.data.reverse.dropWhile (fun c => c = '/')).reverse)

/-- Python `s.strip()` (ASCII whitespace). -/
def pyStripStr (s : String) : String :=
  String.mk (((s.data.dropWhile pyIsSpace).reverse.dropWhile pyIsSpace).reverse)

/-- Fuel-indexed model of Python `s.split(sep)` for nonempty `sep`. -/
def pySplitCore (sep : List Char) : Nat → List Char → List (List Char)
  | 0, l => [l]
  | _ + 1, [] => [[]]
  | fuel + 1, c :: rest =>
    if sep ≠ [] ∧ sep.isPrefixOf (c :: rest) then
      [] :: pySplitCore sep fuel ((c :: rest).drop sep.length)
    else
      match pySplitCore sep fuel rest with
      | [] => [[c]]
      | seg :: segs => (c :: seg) :: segs

/-- Python `s.split(sep)` for nonempty `sep`. -/
def pySplit (s sep : String) : List String :=
  (pySplitCore sep.data s.data.length s.data).map String.mk

/-- Python `s.lower()` (ASCII). -/
def pyLower (s : String) : String := String.mk (s.data.map Char.toLower)

/-- Python `repr` of a list of strings, as interpolated by
f-string `{list(KNOWN_AGENTS.keys())}`. -/
def pyReprStrList (keys : List String) : String :=
  String.mk
    ('[' :: (interJoin [',', ' '] (keys.map (fun k => '\x27' :: (k.data ++ ['\x27']))) ++ [']']))

/-! ## Agent identity and directory (`KNOWN_AGENTS`) -/

/-- main.py:193. -/
def MY_AGENT_USERNAME : String := "mimothecalico"

/-- main.py:200: `MY_AGENT_ID = MY_AGENT_USERNAME`. -/
def MY_AGENT_ID : String := MY_AGENT_USERNAME

/-- The module-global `KNOWN_AGENTS: Dict[str, str]`, modelled as an
insertion-ordered association list (as a Python dict is). -/
abbrev Directory := List (String × String)

/-- Python `d[k] = v`: overwrite in place if the key exists (dict keys are
unique, so at most the first binding matches), else append. -/
def dictSet : Directory → String → String → Directory
  | [], k, v => [(k, v)]
  | p :: rest, k, v => if p.1 = k then (k, v) :: rest else p :: dictSet rest k v

/-- Python `d[k]` / `k in d`. -/
def dirLookup : Directory → String → Option String
  | [], _ => none
  | p :: rest, k => if p.1 = k then some p.2 else dirLookup rest k

/-- Python `list(d.keys())`. -/
def dirKeys (d : Directory) : List String := d.map (·.1)

/-! ## Outbound transport oracle -/

/-- The JSON body of the outbound `POST .../query`. -/
structure QueryBody where
  question : String
  user_id : String
deriving DecidableEq

/-- One outbound HTTP POST attempt. -/
structure PostCall where
  url : String
  body : QueryBody
deriving DecidableEq

/-- Outcome of an outbound POST, as classified by the `except` arms of
`send_message_to_agent`: a 2xx response with parsed JSON body, a timeout
(`httpx.TimeoutException`), an HTTP/transport error (`httpx.HTTPError`,
including `raise_for_status`), or any other in-call exception (for example a
JSON decode failure), whose message is carried. -/
inductive HttpResult where
  | json (v : JVal)
  | timeout
  | httpError (msg : String)
  | otherError (msg : String)

/-- Python `AttributeError` message for `v.get(...)` on a non-dict. -/
def noGetAttrMsg (v : JVal) : String :=
  "\x27" ++ pyTypeName v ++ "\x27 object has no attribute \x27get\x27"

/-- Python `len(v)`: defined for strings (character count), lists and dicts
(element/key count); `none` models the `TypeError` raised on other values. -/
def pyLen : JVal → Option Nat
  | .str s => some s.length
  | .arr l => some l.length
  | .obj f => some f.length
  | _ => none

/-- Python `TypeError` message of `len(v)` on a value without a length
(version-dependent wording; no claim depends on it). -/
def lenTypeErrMsg (v : JVal) : String :=
  "object of type \x27" ++ pyTypeName v ++ "\x27 has no len()"

/-- Error strings of `send_message_to_agent` (main.py:1054-1083). -/
def notFoundMsg (agent_id : String) (keys : List String) : String :=
  "❌ Agent \x27" ++ agent_id ++ "\x27 not found. Known agents: " ++ pyReprStrList keys

def timeoutMsg (agent_id : String) : String :=
  "❌ Timeout connecting to agent \x27" ++ agent_id ++ "\x27"

def commErrorMsg (agent_id e : String) : String :=
  "❌ Error communicating with agent \x27" ++ agent_id ++ "\x27: " ++ e

def unexpectedErrorMsg (e : String) : String := "❌ Unexpected error: " ++ e

/-! ## Audit log and event trace -/

/-- One structured `a2a_logger` line (event kind and interpolated fields;
timestamps are not modelled). -/
inductive LogEvent where
  | incoming (conversation_id text : String)
  | noTarget (conversation_id text : String)
  | routing (conversation_id target message : String)
  | success (conversation_id target : String) (response_length : Nat)
  | error (conversation_id err : String)
deriving DecidableEq

/-- An element of the observable trace: a log line or an outbound POST, in
program order. -/
inductive Event where
  | log (e : LogEvent)
  | call (c : PostCall)
deriving DecidableEq

/-! ## `send_message_to_agent` (main.py:1039-1083) -/

/-- The endpoint rewrite of `send_message_to_agent` (main.py:1059-1064):
swap an `/a2a` suffix for `/query` (Python `replace` rewrites every
occurrence), or append `/query` when neither suffix is present. -/
def queryUrl (agent_url : String) : String :=
  if pyEndsWith agent_url "/a2a" then pyReplace agent_url "/a2a" "/query"
  else if !(pyEndsWith agent_url "/query") then pyRstripSlash agent_url ++ "/query"
  else agent_url

/-- The answer value produced from one transport outcome by the `try` /
`except` arms of `send_message_to_agent`: `data.get("answer", str(data))`
on a 2xx JSON body — the value under `"answer"` is returned RAW, so a
non-string peer answer flows back as-is (`.get` on a non-dict raises into
the generic handler) — and the respective error strings otherwise. -/
def sendAnswer (agent_id : String) : HttpResult → JVal
  | .json (.obj fields) =>
    (match dictFind fields "answer" with
     | some a => a
     | none => .str (pyStr (JVal.obj fields)))
  | .json v => .str (unexpectedErrorMsg (noGetAttrMsg v))
  | .timeout => .str (timeoutMsg agent_id)
  | .httpError e => .str (commErrorMsg agent_id e)
  | .otherError e => .str (unexpectedErrorMsg e)

/-- Embedding of `send_message_to_agent`: resolve the target in the
directory, rewrite its endpoint to the `/query` path, POST the question with
the identity tag of this agent, and classify the outcome; every failure is
returned as an ordinary answer string, while a 2xx answer value is passed
back raw.  Returns the answer value and the trace of outbound calls
attempted. -/
def send_message_to_agent (known : Directory) (transport : PostCall → HttpResult)
    (agent_id message conversation_id : String) : JVal × List Event :=
  match dirLookup known agent_id with
  | none => (.str (notFoundMsg agent_id (dirKeys known)), [])
  | some agent_url =>
    let c : PostCall := ⟨queryUrl agent_url, ⟨message, "agent-" ++ MY_AGENT_USERNAME⟩⟩
    (sendAnswer agent_id (transport c), [.call c])

/-! ## `register_agent` (main.py:1610-1620) -/

/-- Embedding of the effect of the `/agents/register` handler on `KNOWN_AGENTS`:
`KNOWN_AGENTS[agent_id] = agent_url`. -/
def register_agent (known : Directory) (agent_id agent_url : String) : Directory :=
  dictSet known agent_id agent_url

/-! ## `fetch_agents_from_registry` (main.py:996-1036) -/

/-- `username = agent.get("agent_id") or agent.get("username")`. -/
def elemUser (fields : List (String × JVal)) : JVal :=
  pyOr (dictGetD fields "agent_id" .null) (dictGetD fields "username" .null)

/-- `url = agent.get("endpoint") or agent.get("url", "")`. -/
def elemUrl (fields : List (String × JVal)) : JVal :=
  pyOr (dictGetD fields "endpoint" .null) (dictGetD fields "url" (.str ""))

/-- `if not url.endswith("/a2a"): url = url.rstrip("/") + "/a2a"`. -/
def normalizeUrl (u : String) : String :=
  if pyEndsWith u "/a2a" then u else pyRstripSlash u ++ "/a2a"

/-- The update loop `for agent in agents:` of `fetch_agents_from_registry`.
Returns the boolean result of the function together with the directory as left
when the loop finishes or a mid-loop exception aborts it (the enclosing
`except` then returns `False` with the partial updates kept).
A truthy hashable non-string username (number, boolean) is stored by Python
under a non-string dict key; such an entry lies outside the string-keyed
directory modelled here and is skipped (it can never collide with a string
identifier).  A truthy unhashable username (list, dict) makes the dict
assignment raise `TypeError`, aborting the loop. -/
def fetchLoop (d : Directory) : List JVal → Bool × Directory
  | [] => (true, d)
  | agent :: rest =>
    match agent with
    | .obj fields =>
      if !(pyTruthy (elemUser fields)) || jeqStr (elemUser fields) MY_AGENT_USERNAME then
        fetchLoop d rest
      else
        match elemUrl fields with
        | .str u =>
          match elemUser fields with
          | .str uname => fetchLoop (dictSet d uname (normalizeUrl u)) rest
          | .arr _ | .obj _ => (false, d)
          | _ => fetchLoop d rest
        | _ => (false, d)
    | _ => (false, d)

/-- Embedding of `fetch_agents_from_registry`.  The registry response is an
oracle: `.error` models an unreachable registry, a non-2xx status
(`raise_for_status`) or an unparseable body; `.ok data` is the parsed JSON.
Faithful to the code, `data.get("agents", [])` raises `AttributeError` when
`data` is not a dict — in particular a bare JSON array response fails before
the `isinstance(data, list)` fallback can run — and the `except` then
returns `False` with the directory untouched.  When `agents` is a truthy
non-list, `len(agents)` or the first iteration raises; empty strings and
empty dicts iterate zero times and return `True`. -/
def fetch_agents_from_registry (known : Directory) (response : Except String JVal) :
    Bool × Directory :=
  match response with
  | .error _ => (false, known)
  | .ok data =>
    match data with
    | .obj fields =>
      match dictGetD fields "agents" (.arr []) with
      | .arr l => fetchLoop known l
      | .str s => if s.isEmpty then (true, known) else (false, known)
      | .obj f => if f.isEmpty then (true, known) else (false, known)
      | _ => (false, known)
    | _ => (false, known)

/-- The string identifier a payload element would be stored under
(`agent.get("agent_id") or agent.get("username")`, when that is a string). -/
def elemUsername (agent : JVal) : Option String :=
  match agent with
  | .obj fields =>
    match elemUser fields with
    | .str s => some s
    | _ => none
  | _ => none

/-- All string identifiers occurring in a registry response payload. -/
def extractedIds (response : Except String JVal) : List String :=
  match response with
  | .error _ => []
  | .ok (.obj fields) =>
    match dictGetD fields "agents" (.arr []) with
    | .arr l => l.filterMap elemUsername
    | _ => []
  | .ok _ => []

/-! ## `select_best_agent` (main.py:1152-1241) -/

/-- The fields of an agentfacts catalog entry that the selection logic reads
(`agent.get("id","")`, label, description); `skills` and `endpoints` only
feed the LLM prompt text and are not modelled. -/
structure AgentFacts where
  id : String
  label : String
  description : String
deriving DecidableEq

/-- The keyword fallback run by the `except` arm of `select_best_agent`: first entry
whose lowercased description or label contains the lowercased query. -/
def keywordFallback (query : String) (agentfacts : List AgentFacts) : Option AgentFacts :=
  agentfacts.find? (fun agent =>
    pyContains (pyLower agent.description) (pyLower query) ||
    pyContains (pyLower agent.label) (pyLower query))

/-- The code-fence unwrapping of `select_best_agent` (main.py:1219-1225):
strip the reply, then cut out the segment after ````json` (or after the
first triple backtick) and before the next triple backtick. -/
def stripCodeFences (raw : String) : String :=
  let response_text := pyStripStr raw
  if pyContains response_text "```json" then
    pyStripStr ((pySplit ((pySplit response_text "```json").getD 1 "") "```").headD "")
  else if pyContains response_text "```" then
    pyStripStr ((pySplit ((pySplit response_text "```").getD 1 "") "```").headD "")
  else response_text

/-- Outcome of the selection LLM call: a raw reply string, or an exception
while constructing/calling the model. -/
inductive LlmOutcome where
  | reply (text : String)
  | failure

/-- Embedding of `select_best_agent`.  `json.loads` is an oracle
`jparse : String → Option JVal` (`none` = parse exception).  A reply parsing
to a non-dict makes `selection.get` raise, landing in the same `except` arm
as a parse failure; a falsy `selected_agent_id` returns `None`; otherwise
the first catalog entry with that id is returned, or `None` if there is
none — the fallback does not run in that case. -/
def select_best_agent (jparse : String → Option JVal) (query : String)
    (agentfacts : List AgentFacts) (llm : LlmOutcome) : Option AgentFacts :=
  if agentfacts.isEmpty then none
  else
    match llm with
    | .failure => keywordFallback query agentfacts
    | .reply r =>
      match jparse (stripCodeFences r) with
      | none => keywordFallback query agentfacts
      | some (.obj selection) =>
        let selected_id := dictGetD selection "selected_agent_id" .null
        if !(pyTruthy selected_id) then none
        else
          match selected_id with
          | .str sid =>
            (match agentfacts.find? (fun a => a.id == sid) with
             | some a => some a
             | none => none)
          | _ => none
      | some _ => keywordFallback query agentfacts

/-! ## The `/a2a` endpoint (main.py:1534-1605) -/

/-- Inbound A2A message (`A2AMessage` pydantic model, main.py:141). -/
structure A2AMessage where
  content : List (String × JVal)
  role : String
  conversation_id : String

/-- Outbound A2A response (`A2AResponse` pydantic model, main.py:147);
`content` is the dict `{"text": ..., "type": "text"}`; the timestamp is not
modelled. -/
structure A2AResponse where
  content_text : String
  content_type : String
  role : String
  conversation_id : String
  agent_id : String
deriving DecidableEq

/-- Result of the handler: a 2xx response body, or a raised `HTTPException`
with status code and detail. -/
inductive EndpointResult where
  | ok (resp : A2AResponse)
  | httpException (status : Nat) (detail : String)
deriving DecidableEq

/-- The 400 detail built by `a2a_endpoint` when no mention is found
(main.py:1557-1567): constant text around the offending message. -/
def noTargetPre : String :=
  "❌ ERROR: /a2a endpoint requires @agent-id for routing.\n\nYour message: \x27"

def noTargetPost : String :=
  "\x27\n\nThis endpoint is ONLY for agent-to-agent communication.\nYou must include @agent-id to route to another agent.\n\nExamples:\n  - \x27@john-agent Can you help with this?\x27\n  - \x27@research-bot What\x27s the latest on AI?\x27\n\nFor direct queries to THIS agent, use POST /query instead."

def noTargetErrorMsg (text_content : String) : String :=
  noTargetPre ++ text_content ++ noTargetPost

/-- Python `TypeError` message of `re.findall(pattern, v)` on a non-string
(version-dependent wording; no claim depends on it). -/
def reTypeErrMsg (v : JVal) : String :=
  "expected string or bytes-like object, got \x27" ++ pyTypeName v ++ "\x27"

/-- Embedding of the `a2a_endpoint` handler.  Returns the handler result and
the ordered trace of log lines and outbound calls.  When
`content.get("text", "")` is not a string, `re.findall` raises `TypeError`
inside the `try`, so the outer handler logs `ERROR` and raises HTTP 500.
After a forward, the response text interpolates the answer value through
`str()`, and the `SUCCESS` log line evaluates `len(agent_response)`: on an
answer value without a length (null, number, boolean) that raises
`TypeError`, so the outer handler logs `ERROR` and raises HTTP 500 instead
of logging `SUCCESS`. -/
def a2a_endpoint (known : Directory) (transport : PostCall → HttpResult)
    (message : A2AMessage) : EndpointResult × List Event :=
  match dictGetD message.content "text" (.str "") with
  | .str text_content =>
    let conversation_id := message.conversation_id
    let trace0 : List Event := [.log (.incoming conversation_id text_content)]
    match parse_a2a_request text_content with
    | (none, _) =>
      (.httpException 400 (noTargetErrorMsg text_content),
       trace0 ++ [.log (.noTarget conversation_id text_content)])
    | (some target_agent, clean_message) =>
      if target_agent.isEmpty then
        (.httpException 400 (noTargetErrorMsg text_content),
         trace0 ++ [.log (.noTarget conversation_id text_content)])
      else
        let trace1 := trace0 ++ [Event.log (.routing conversation_id target_agent clean_message)]
        let res := send_message_to_agent known transport target_agent clean_message conversation_id
        let response_text := "[Forwarded to @" ++ target_agent ++ "]\n\n" ++ pyStr res.1
        match pyLen res.1 with
        | some n =>
          (.ok ⟨response_text, "text", "assistant", conversation_id, MY_AGENT_ID⟩,
           trace1 ++ res.2 ++ [.log (.success conversation_id target_agent n)])
        | none =>
          (.httpException 500 ("Error processing A2A message: " ++ lenTypeErrMsg res.1),
           trace1 ++ res.2 ++ [.log (.error conversation_id (lenTypeErrMsg res.1))])
  | v =>
    (.httpException 500 ("Error processing A2A message: " ++ reTypeErrMsg v),
     [.log (.incoming message.conversation_id (pyStr v)),
      .log (.error message.conversation_id (reTypeErrMsg v))])

end DayFour

namespace DayFour

/-! ## Basic facts about the mention scanner -/

theorem findMentionsFuel_mem_ne_nil :
    ∀ (fuel : Nat) (l : List Char) (t : List Char),
      t ∈ findMentionsFuel fuel l → t ≠ [] ∧ ∀ c ∈ t, isMentionChar c = true := by
  intro fuel
  induction fuel with
  | zero => intro l t h; simp [findMentionsFuel] at h
  | succ n ih =>
    intro l t h
    match l with
    | [] => simp [findMentionsFuel] at h
    | c :: rest =>
      by_cases hc : c = '@' ∧ rest.takeWhile isMentionChar ≠ []
      · rw [findMentionsFuel, if_pos hc] at h
        simp only [List.mem_cons] at h
        rcases h with h | h
        · subst h
          refine ⟨hc.2, ?_⟩
          intro x hx
          exact List.mem_takeWhile_imp hx
        · exact ih _ t h
      · rw [findMentionsFuel, if_neg hc] at h
        exact ih rest t h

theorem findMentions_mem_ne_nil {l t : List Char} (h : t ∈ findMentions l) :
    t ≠ [] ∧ ∀ c ∈ t, isMentionChar c = true :=
  findMentionsFuel_mem_ne_nil l.length l t h

/-- The deletion performed by `subFirst` happens exactly at the first mention:
when the first capture of the scanner is `t`, the message splits as
`pre ++ '@' :: (t ++ rest)` at that capture, and `subFirst t` returns
`pre ++ rest.dropWhile pyIsSpace`. -/
theorem subFirst_at_first_mention :
    ∀ (msg t : List Char) (ts : List (List Char)), findMentions msg = t :: ts →
      ∃ pre rest, msg = pre ++ '@' :: (t ++ rest) ∧
        subFirst t msg = pre ++ rest.dropWhile pyIsSpace := by
  intro msg
  induction msg with
  | nil => intro t ts h; simp [findMentions, findMentionsFuel] at h
  | cons c rest ih =>
    intro t ts h
    have hunf : findMentions (c :: rest) =
        findMentionsFuel (rest.length + 1) (c :: rest) := by
      simp [findMentions]
    by_cases hc : c = '@' ∧ rest.takeWhile isMentionChar ≠ []
    · rw [hunf, findMentionsFuel, if_pos hc] at h
      obtain ⟨ht, _⟩ := List.cons.inj h
      subst ht
      refine ⟨[], rest.drop (rest.takeWhile isMentionChar).length, ?_, ?_⟩
      · have hsplit :
            rest.takeWhile isMentionChar ++
              rest.drop (rest.takeWhile isMentionChar).length = rest := by
          obtain ⟨suf, hsuf⟩ := List.takeWhile_prefix (l := rest) isMentionChar
          generalize hg : rest.takeWhile isMentionChar = tw at hsuf ⊢
          rw [← hsuf, List.drop_left]
        rw [hc.1]
        simp [hsplit]
      · have hpref : (rest.takeWhile isMentionChar).isPrefixOf rest = true :=
          List.isPrefixOf_iff_prefix.mpr ( List.takeWhile_prefix _)
        rw [subFirst, if_pos ⟨hc.1, hpref⟩]
        simp
    · rw [hunf, findMentionsFuel, if_neg hc] at h
      have hrest : findMentions rest = t :: ts := h
      obtain ⟨pre, r, hsplit, hsub⟩ := ih t ts hrest
      have hnot : ¬ (c = '@' ∧ t.isPrefixOf rest) := by
        rintro ⟨hat, hpref⟩
        apply hc
        refine ⟨hat, ?_⟩
        obtain ⟨htne, hall⟩ :=
          findMentions_mem_ne_nil (l := rest) (t := t) (by rw [hrest]; simp)
        match t, htne with
        | x :: t', _ =>
          obtain ⟨suf, hsuf⟩ := List.isPrefixOf_iff_prefix.mp hpref
          rw [← hsuf]
          have hx : isMentionChar x = true := hall x (by simp)
          simp [List.takeWhile, hx]
      refine ⟨c :: pre, r, by simp [hsplit], ?_⟩
      rw [subFirst, if_neg hnot, hsub]
      simp

theorem mk_data_eq (s : String) : String.mk s.data = s := rfl

theorem strApp_data (s t : String) : (s ++ t).data = s.data ++ t.data := rfl

theorem parse_eq_none {msg : String} (h : findMentions msg.data = []) :
    parse_a2a_request msg = (none, msg) := by
  simp [parse_a2a_request, parseCore, h, mk_data_eq]

theorem parse_fst_of_mentions {msg : String} {t : List Char} {ts : List (List Char)}
    (h : findMentions msg.data = t :: ts) :
    parse_a2a_request msg = (some (String.mk t), String.mk (subFirst t msg.data)) := by
  simp [parse_a2a_request, parseCore, h]

theorem parse_target_not_empty {text t c : String}
    (h : parse_a2a_request text = (some t, c)) : t.isEmpty = false := by
  unfold parse_a2a_request parseCore at h
  cases hm : findMentions text.data with
  | nil => rw [hm] at h; simp at h
  | cons t0 ts =>
    rw [hm] at h
    have ht : String.mk t0 = t := by
      have := congrArg Prod.fst h
      simpa using this
    obtain ⟨hne, -⟩ :=
      findMentions_mem_ne_nil (l := text.data) (t := t0) (by rw [hm]; simp)
    subst ht
    match t0, hne with
    | c0 :: cs, _ =>
      rw [Bool.eq_false_iff]
      intro hemp
      have hmk : String.mk (c0 :: cs) = "" := (String.isEmpty_iff _).mp hemp
      exact absurd (congrArg String.data hmk) (by simp)

theorem interJoin_mem (sep : List Char) :
    ∀ (l : List (List Char)) (x : List Char), x ∈ l →
      ∃ a b, interJoin sep l = a ++ x ++ b := by
  intro l
  induction l with
  | nil => simp
  | cons h t ih =>
    intro x hx
    cases t with
    | nil =>
      simp only [List.mem_singleton] at hx
      subst hx
      exact ⟨[], [], by simp [interJoin]⟩
    | cons y ys =>
      rcases List.mem_cons.mp hx with rfl | hmem
      · exact ⟨[], sep ++ interJoin sep (y :: ys), by simp [interJoin]⟩
      · obtain ⟨a, b, hab⟩ := ih x hmem
        exact ⟨h ++ sep ++ a, b, by simp [interJoin, hab]⟩

theorem pyReprStrList_mem {k : String} {keys : List String} (h : k ∈ keys) :
    ∃ a b, (pyReprStrList keys).data = a ++ ('\x27' :: (k.data ++ ['\x27'])) ++ b := by
  obtain ⟨a, b, hab⟩ :=
    interJoin_mem [',', ' '] (keys.map (fun k => '\x27' :: (k.data ++ ['\x27'])))
      ('\x27' :: (k.data ++ ['\x27'])) (List.mem_map_of_mem _ h)
  exact ⟨'[' :: a, b ++ [']'], by simp [pyReprStrList, hab, List.append_assoc]⟩

theorem dirLookup_dictSet_ne {k k' : String} (hne : k' ≠ k) :
    ∀ (d : Directory) (v : String), dirLookup (dictSet d k v) k' = dirLookup d k' := by
  intro d
  induction d with
  | nil =>
    intro v
    simp [dictSet, dirLookup, Ne.symm hne]
  | cons p rest ih =>
    intro v
    by_cases hp : p.1 = k
    · have hp' : p.1 ≠ k' := by rw [hp]; exact Ne.symm hne
      simp only [dictSet, if_pos hp]
      simp [dirLookup, Ne.symm hne, hp']
    · simp only [dictSet, if_neg hp]
      by_cases hq : p.1 = k'
      · simp [dirLookup, hq]
      · simp [dirLookup, hq, ih v]

theorem dirLookup_dictSet_self (k v : String) :
    ∀ d : Directory, dirLookup (dictSet d k v) k = some v := by
  intro d
  induction d with
  | nil => simp [dictSet, dirLookup]
  | cons p rest ih =>
    by_cases hp : p.1 = k
    · simp [dictSet, hp, dirLookup]
    · simp [dictSet, hp, dirLookup, ih]

theorem fetchLoop_frame :
    ∀ (l : List JVal) (d : Directory) (k : String),
      k ∉ l.filterMap elemUsername →
      dirLookup (fetchLoop d l).2 k = dirLookup d k := by
  intro l
  induction l with
  | nil => intro d k _; rfl
  | cons agent rest ih =>
    intro d k hk
    have hk' : k ∉ rest.filterMap elemUsername := by
      intro hmem
      apply hk
      rw [List.filterMap_cons]
      cases elemUsername agent with
      | none => exact hmem
      | some s => exact List.mem_cons_of_mem _ hmem
    match agent with
    | .null | .bool _ | .num _ | .str _ | .arr _ => rfl
    | .obj fields =>
      by_cases hskip :
          (!(pyTruthy (elemUser fields)) || jeqStr (elemUser fields) MY_AGENT_USERNAME) = true
      · simp only [fetchLoop, if_pos hskip]
        exact ih d k hk'
      · simp only [fetchLoop, if_neg hskip]
        cases hurl : elemUrl fields with
        | str u =>
          cases huser : elemUser fields with
          | str uname =>
            have hne : k ≠ uname := by
              rintro rfl
              apply hk
              rw [List.filterMap_cons]
              have : elemUsername (JVal.obj fields) = some k := by
                simp [elemUsername, huser]
              rw [this]
              exact List.mem_cons_self _ _
            simp only [hurl, huser]
            rw [ih _ k hk']
            exact dirLookup_dictSet_ne hne d _
          | null | bool b | num n =>
            simp only [hurl, huser]
            exact ih d k hk'
          | arr l2 | obj f2 => simp [hurl, huser]
        | null | bool b | num n | arr l2 | obj f2 => simp only [hurl]

theorem fetch_frame (known : Directory) (resp : Except String JVal) (k : String)
    (hk : k ∉ extractedIds resp) :
    dirLookup (fetch_agents_from_registry known resp).2 k = dirLookup known k := by
  match resp with
  | .error e => rfl
  | .ok data =>
    match data with
    | .null | .bool _ | .num _ | .str _ | .arr _ => rfl
    | .obj fields =>
      simp only [fetch_agents_from_registry]
      cases hag : dictGetD fields "agents" (.arr []) with
      | arr l =>
        have hids : extractedIds (.ok (.obj fields)) = l.filterMap elemUsername := by
          simp [extractedIds, hag]
        exact fetchLoop_frame l known k (by rw [← hids]; exact hk)
      | str s =>
        by_cases hs : s.isEmpty <;> simp [hs]
      | obj f =>
        by_cases hf : f.isEmpty <;> simp [hf]
      | null => rfl
      | bool b => rfl
      | num n => rfl

/-- C2: for every input with no `@`-mention, `parse_a2a_request` returns
`(None, input unchanged)`; for every input with at least one mention, it
returns the first captured identifier as the target, and the input with
exactly that occurrence (plus the whitespace immediately after it) deleted
once; in particular `"@a @b hi"` parses to `("a", "@b hi")`, the second
mention left verbatim. -/
theorem C2_mention_first_match_consumed (msg : String) :
    (extract_agent_mentions msg = [] → parse_a2a_request msg = (none, msg)) ∧
    (∀ t ts, findMentions msg.data = t :: ts →
      ∃ pre rest, msg.data = pre ++ '@' :: (t ++ rest) ∧
        parse_a2a_request msg =
          (some (String.mk t), String.mk (pre ++ rest.dropWhile pyIsSpace))) ∧
    parse_a2a_request "@a @b hi" = (some "a", "@b hi") := by
  refine ⟨?_, ?_, by decide⟩
  · intro h
    have hm : findMentions msg.data = [] := by
      have := congrArg List.length h
      simpa [extract_agent_mentions] using List.map_eq_nil_iff.mp h
    simp [parse_a2a_request, parseCore, hm, mk_data_eq]
  · intro t ts h
    obtain ⟨pre, rest, hsplit, hsub⟩ := subFirst_at_first_mention msg.data t ts h
    exact ⟨pre, rest, hsplit, by simp [parse_a2a_request, parseCore, h, hsub]⟩

theorem C2_mention_first_match_consumed_witness :
    (parse_a2a_request "just a question" = (none, "just a question")) ∧
    ∃ pre rest, ("@a @b hi" : String).data = pre ++ '@' :: (['a'] ++ rest) ∧
      parse_a2a_request "@a @b hi" =
        (some (String.mk ['a']), String.mk (pre ++ rest.dropWhile pyIsSpace)) :=
  ⟨(C2_mention_first_match_consumed "just a question").1 (by decide),
   (C2_mention_first_match_consumed "@a @b hi").2.1 ['a'] [['b']] (by decide)⟩

set_option maxRecDepth 16384 in
/-- C1: an inbound A2A message whose text has no `@`-mention (the empty
string included) is answered with HTTP 400 and a `NO_TARGET` log line; no
outbound call is made and the message is never answered as a self-query;
the error detail contains the literal `@agent-id`, usage examples, and
names `POST /query` as the alternative. -/
theorem C1_no_mention_rejected (known : Directory) (transport : PostCall → HttpResult)
    (content : List (String × JVal)) (role conv text : String)
    (htext : dictGetD content "text" (.str "") = .str text)
    (hnom : extract_agent_mentions text = []) :
    a2a_endpoint known transport ⟨content, role, conv⟩ =
      (.httpException 400 (noTargetErrorMsg text),
       [.log (.incoming conv text), .log (.noTarget conv text)]) ∧
    (∃ a b, (noTargetErrorMsg text).data = a ++ ("@agent-id".data ++ b)) ∧
    (∃ a b, (noTargetErrorMsg text).data = a ++ ("Examples:".data ++ b)) ∧
    (∃ a b, (noTargetErrorMsg text).data = a ++ ("POST /query".data ++ b)) := by
  have hm : findMentions text.data = [] := by
    simpa [extract_agent_mentions] using List.map_eq_nil_iff.mp hnom
  have hdata : (noTargetErrorMsg text).data =
      noTargetPre.data ++ (text.data ++ noTargetPost.data) := by
    simp [noTargetErrorMsg, strApp_data, List.append_assoc]
  refine ⟨?_, ?_, ?_, ?_⟩
  · simp [a2a_endpoint, htext, parse_eq_none hm]
  · refine ⟨("❌ ERROR: /a2a endpoint requires ").data,
      (" for routing.\n\nYour message: \x27").data ++ (text.data ++ noTargetPost.data), ?_⟩
    have h1 : noTargetPre.data =
        ("❌ ERROR: /a2a endpoint requires ").data ++
          (("@agent-id").data ++ (" for routing.\n\nYour message: \x27").data) := by
      decide
    rw [hdata, h1]
    simp [List.append_assoc]
  · refine ⟨noTargetPre.data ++ (text.data ++
      ("\x27\n\nThis endpoint is ONLY for agent-to-agent communication.\nYou must include @agent-id to route to another agent.\n\n").data),
      ("\n  - \x27@john-agent Can you help with this?\x27\n  - \x27@research-bot What\x27s the latest on AI?\x27\n\nFor direct queries to THIS agent, use POST /query instead.").data, ?_⟩
    have h2 : noTargetPost.data =
        ("\x27\n\nThis endpoint is ONLY for agent-to-agent communication.\nYou must include @agent-id to route to another agent.\n\n").data ++
          (("Examples:").data ++
            ("\n  - \x27@john-agent Can you help with this?\x27\n  - \x27@research-bot What\x27s the latest on AI?\x27\n\nFor direct queries to THIS agent, use POST /query instead.").data) := by
      decide
    rw [hdata, h2]
    simp [List.append_assoc]
  · refine ⟨noTargetPre.data ++ (text.data ++
      ("\x27\n\nThis endpoint is ONLY for agent-to-agent communication.\nYou must include @agent-id to route to another agent.\n\nExamples:\n  - \x27@john-agent Can you help with this?\x27\n  - \x27@research-bot What\x27s the latest on AI?\x27\n\nFor direct queries to THIS agent, use ").data),
      (" instead.").data, ?_⟩
    have h3 : noTargetPost.data =
        ("\x27\n\nThis endpoint is ONLY for agent-to-agent communication.\nYou must include @agent-id to route to another agent.\n\nExamples:\n  - \x27@john-agent Can you help with this?\x27\n  - \x27@research-bot What\x27s the latest on AI?\x27\n\nFor direct queries to THIS agent, use ").data ++
          (("POST /query").data ++ (" instead.").data) := by
      decide
    rw [hdata, h3]
    simp [List.append_assoc]

theorem C1_no_mention_rejected_witness :
    a2a_endpoint [] (fun _ => .timeout) ⟨[("text", .str "")], "user", "c0"⟩ =
      (.httpException 400 (noTargetErrorMsg ""),
       [.log (.incoming "c0" ""), .log (.noTarget "c0" "")]) :=
  (C1_no_mention_rejected [] (fun _ => .timeout) [("text", .str "")] "user" "c0" ""
    rfl (by decide)).1

/-- C3: with the directory mapping `alice` to `http://x/a2a`, the inbound
A2A message `"@alice hello"` on conversation `"c1"` makes exactly one
outbound POST, to `http://x/query` with body
`{"question": "hello", "user_id": "agent-mimothecalico"}`; when the peer
answers `{"answer": "hi"}`, the A2A response text is
`"[Forwarded to @alice]\n\nhi"` with conversation id `"c1"`; and in general
the conversation identifier of any 2xx A2A response equals that of the
request. -/
theorem C3_forward_happy_path :
    (a2a_endpoint [("alice", "http://x/a2a")]
        (fun c =>
          if c = ⟨"http://x/query", ⟨"hello", "agent-mimothecalico"⟩⟩ then
            .json (.obj [("answer", .str "hi")])
          else .timeout)
        ⟨[("text", .str "@alice hello")], "user", "c1"⟩ =
      (.ok ⟨"[Forwarded to @alice]\n\nhi", "text", "assistant", "c1", MY_AGENT_ID⟩,
       [.log (.incoming "c1" "@alice hello"),
        .log (.routing "c1" "alice" "hello"),
        .call ⟨"http://x/query", ⟨"hello", "agent-mimothecalico"⟩⟩,
        .log (.success "c1" "alice" 2)])) ∧
    (∀ (known : Directory) (transport : PostCall → HttpResult) (msg : A2AMessage)
        (resp : A2AResponse) (trace : List Event),
      a2a_endpoint known transport msg = (.ok resp, trace) →
      resp.conversation_id = msg.conversation_id) := by
  refine ⟨by decide, ?_⟩
  intro known transport msg resp trace h
  unfold a2a_endpoint at h
  split at h
  · split at h
    · simp only [Prod.mk.injEq] at h
      exact EndpointResult.noConfusion h.1
    · split at h
      · simp only [Prod.mk.injEq] at h
        exact EndpointResult.noConfusion h.1
      · dsimp only at h
        split at h
        · simp only [Prod.mk.injEq] at h
          have := EndpointResult.ok.inj h.1
          rw [← this]
        · simp only [Prod.mk.injEq] at h
          exact EndpointResult.noConfusion h.1
  · simp only [Prod.mk.injEq] at h
    exact EndpointResult.noConfusion h.1

theorem C3_forward_happy_path_witness :
    (A2AResponse.mk "[Forwarded to @alice]\n\nhi" "text" "assistant" "c1"
        MY_AGENT_ID).conversation_id =
      (A2AMessage.mk [("text", .str "@alice hello")] "user" "c1").conversation_id :=
  C3_forward_happy_path.2 _ _ _ _ _ C3_forward_happy_path.1

/-- C5 (code bug): a bare JSON array from the registry is rejected — the
refresh returns failure and adds nothing, because `data.get("agents", [])`
raises `AttributeError` on a list before the `isinstance(data, list)` check
can run — while the same descriptor wrapped in an `agents` object is
normalized into a directory entry. -/
theorem C5_bare_array_not_accepted :
    fetch_agents_from_registry []
        (.ok (.arr [.obj [("agent_id", .str "bob"), ("endpoint", .str "http://y/a2a")]])) =
      (false, []) ∧
    fetch_agents_from_registry []
        (.ok (.obj [("agents",
          .arr [.obj [("agent_id", .str "bob"), ("endpoint", .str "http://y/a2a")]])])) =
      (true, [("bob", "http://y/a2a")]) := by
  decide

/-- C7 (counterexample): a failed forward still logs `SUCCESS`.  With an
empty directory, `"@bob hi"` makes the forwarder fail with its
unknown-agent error string, yet the handler logs a `SUCCESS` event for the
conversation. -/
theorem C7_success_logged_after_failed_forward :
    send_message_to_agent [] (fun _ => .timeout) "bob" "hi" "c7" =
      (.str (notFoundMsg "bob" []), []) ∧
    Event.log (.success "c7" "bob" (notFoundMsg "bob" []).length) ∈
      (a2a_endpoint [] (fun _ => .timeout) ⟨[("text", .str "@bob hi")], "user", "c7"⟩).2 :=
  ⟨rfl, by decide⟩

/-- C8 (counterexample): a malformed element in the middle of the `agents`
list aborts the refresh after earlier entries were already applied, so a
malformed body does not always leave the directory exactly as it was:
here `bob` is added before the integer element `42` raises. -/
theorem C8_partial_update_on_malformed_element :
    fetch_agents_from_registry [("old", "http://o/a2a")]
        (.ok (.obj [("agents",
          .arr [.obj [("agent_id", .str "bob"), ("endpoint", .str "http://y")],
                .num 42])])) =
      (false, [("old", "http://o/a2a"), ("bob", "http://y/a2a")]) ∧
    ([("old", "http://o/a2a"), ("bob", "http://y/a2a")] : Directory) ≠
      [("old", "http://o/a2a")] := by
  decide

/-- C8 (amended): an unreachable registry, a non-2xx status or an
unparseable body (`response` = `.error`), as well as any non-object JSON
body — which makes `data.get` raise before any entry is processed — leaves
the directory exactly unchanged and is reported as a non-fatal `False`;
only a malformation occurring mid-iteration can leave earlier entries
applied. -/
theorem C8_refresh_failure_degrades (known : Directory) :
    (∀ e, fetch_agents_from_registry known (.error e) = (false, known)) ∧
    (∀ data, isObj data = false →
      fetch_agents_from_registry known (.ok data) = (false, known)) := by
  refine ⟨fun e => rfl, ?_⟩
  intro data h
  match data with
  | .null | .bool _ | .num _ | .str _ | .arr _ => rfl
  | .obj fields => simp [isObj] at h

theorem C8_refresh_failure_degrades_witness :
    fetch_agents_from_registry [("old", "u")] (.ok (.arr [])) = (false, [("old", "u")]) :=
  (C8_refresh_failure_degrades [("old", "u")]).2 (.arr []) (by decide)

/-- C9: a registry refresh never deletes directory entries — any identifier
that does not occur in the fetched payload keeps exactly its previous
binding — and an entry is only overwritten per identifier: explicit
registration rebinds exactly the registered identifier (last write wins)
and leaves every other binding unchanged. -/
theorem C9_refresh_preserves_unlisted_entries (known : Directory) :
    (∀ resp k, k ∉ extractedIds resp →
      dirLookup (fetch_agents_from_registry known resp).2 k = dirLookup known k) ∧
    (∀ agent_id agent_url k, k ≠ agent_id →
      dirLookup (register_agent known agent_id agent_url) k = dirLookup known k) ∧
    (∀ agent_id agent_url,
      dirLookup (register_agent known agent_id agent_url) agent_id = some agent_url) :=
  ⟨fun resp k hk => fetch_frame known resp k hk,
   fun _ agent_url k hk => dirLookup_dictSet_ne hk known agent_url,
   fun agent_id agent_url => dirLookup_dictSet_self agent_id agent_url known⟩

/-- C6: forwarding to an identifier absent from the directory returns the
unknown-agent error answer — whose text lists every currently known
identifier — and attempts no outbound transport call. -/
theorem C6_unknown_agent_no_transport (known : Directory)
    (transport : PostCall → HttpResult) (agent_id message conv : String)
    (h : dirLookup known agent_id = none) :
    send_message_to_agent known transport agent_id message conv =
      (.str (notFoundMsg agent_id (dirKeys known)), []) ∧
    ∀ k ∈ dirKeys known, ∃ a b,
      (notFoundMsg agent_id (dirKeys known)).data =
        a ++ ('\x27' :: (k.data ++ ['\x27'])) ++ b := by
  constructor
  · simp [send_message_to_agent, h]
  · intro k hk
    obtain ⟨a, b, hab⟩ := pyReprStrList_mem hk
    refine ⟨("❌ Agent \x27" ++ agent_id ++
      "\x27 not found. Known agents: ").data ++ a, b, ?_⟩
    simp [notFoundMsg, strApp_data, hab, List.append_assoc]

theorem C6_unknown_agent_no_transport_witness :
    (send_message_to_agent [("a", "u")] (fun _ => .timeout) "bob" "m" "c" =
      (.str (notFoundMsg "bob" (dirKeys [("a", "u")])), [])) ∧
    ∃ x y, (notFoundMsg "bob" (dirKeys [("a", "u")])).data =
      x ++ ('\x27' :: ("a".data ++ ['\x27'])) ++ y :=
  ⟨(C6_unknown_agent_no_transport [("a", "u")] (fun _ => .timeout) "bob" "m" "c"
      (by decide)).1,
   (C6_unknown_agent_no_transport [("a", "u")] (fun _ => .timeout) "bob" "m" "c"
      (by decide)).2 "a" (by decide)⟩

/-- C7 (amended): for every inbound A2A message whose text parses to a
target, the handler logs `ROUTING` before the forwarder runs (the
trace of the forwarder consists of outbound call events only), and then
logs exactly one of `SUCCESS` or `ERROR`: `SUCCESS` whenever the returned
answer value has a Python length — which includes every failed forward,
since the forwarder returns its error descriptions as strings — and
`ERROR` (with HTTP 500 from the outer handler) exactly when a 2xx peer
body carries a length-less answer value such as null or a number. -/
theorem C7_routing_then_always_success (known : Directory)
    (transport : PostCall → HttpResult) (content : List (String × JVal))
    (role conv text t c : String)
    (htext : dictGetD content "text" (.str "") = .str text)
    (hp : parse_a2a_request text = (some t, c)) :
    (a2a_endpoint known transport ⟨content, role, conv⟩).2 =
      [.log (.incoming conv text), .log (.routing conv t c)] ++
        (send_message_to_agent known transport t c conv).2 ++
        (match pyLen (send_message_to_agent known transport t c conv).1 with
         | some n => [Event.log (.success conv t n)]
         | none =>
           [Event.log (.error conv
             (lenTypeErrMsg (send_message_to_agent known transport t c conv).1))]) ∧
    (∀ e ∈ (send_message_to_agent known transport t c conv).2,
      ∃ cc, e = Event.call cc) ∧
    (dirLookup known t = none →
      (a2a_endpoint known transport ⟨content, role, conv⟩).2 =
        [.log (.incoming conv text), .log (.routing conv t c),
         .log (.success conv t (notFoundMsg t (dirKeys known)).length)]) := by
  have hne := parse_target_not_empty hp
  refine ⟨?_, ?_, ?_⟩
  · cases hl : pyLen (send_message_to_agent known transport t c conv).1 with
    | some n => simp [a2a_endpoint, htext, hp, hne, hl]
    | none => simp [a2a_endpoint, htext, hp, hne, hl]
  · intro e he
    unfold send_message_to_agent at he
    cases hd : dirLookup known t with
    | none => rw [hd] at he; simp at he
    | some url =>
      rw [hd] at he
      simp only [List.mem_singleton] at he
      exact ⟨_, he⟩
  · intro hd
    simp [a2a_endpoint, htext, hp, hne, send_message_to_agent, hd, pyLen, pyStr]

theorem C7_routing_then_always_success_witness :
    ((a2a_endpoint [] (fun _ => .timeout)
        ⟨[("text", .str "@bob hi")], "user", "c0"⟩).2 =
      [.log (.incoming "c0" "@bob hi"), .log (.routing "c0" "bob" "hi")] ++
        (send_message_to_agent [] (fun _ => .timeout) "bob" "hi" "c0").2 ++
        (match pyLen (send_message_to_agent [] (fun _ => .timeout) "bob" "hi" "c0").1 with
         | some n => [Event.log (.success "c0" "bob" n)]
         | none =>
           [Event.log (.error "c0"
             (lenTypeErrMsg
               (send_message_to_agent [] (fun _ => .timeout) "bob" "hi" "c0").1))])) ∧
    (∀ e ∈ (send_message_to_agent [] (fun _ => .timeout) "bob" "hi" "c0").2,
      ∃ cc, e = Event.call cc) ∧
    ((a2a_endpoint [] (fun _ => .timeout)
        ⟨[("text", .str "@bob hi")], "user", "c0"⟩).2 =
      [.log (.incoming "c0" "@bob hi"), .log (.routing "c0" "bob" "hi"),
       .log (.success "c0" "bob" (notFoundMsg "bob" (dirKeys [])).length)]) :=
  ⟨(C7_routing_then_always_success [] (fun _ => .timeout) [("text", .str "@bob hi")]
      "user" "c0" "@bob hi" "bob" "hi" rfl (by decide)).1,
   (C7_routing_then_always_success [] (fun _ => .timeout) [("text", .str "@bob hi")]
      "user" "c0" "@bob hi" "bob" "hi" rfl (by decide)).2.1,
   (C7_routing_then_always_success [] (fun _ => .timeout) [("text", .str "@bob hi")]
      "user" "c0" "@bob hi" "bob" "hi" rfl (by decide)).2.2 (by decide)⟩

/-- C10: when forwarding fails after a target was resolved — unknown agent,
timeout, or transport error — the forwarder returns the error description
as an ordinary answer string, and the handler still replies with a 2xx
response of role `assistant` whose text is `"[Forwarded to @<target>]"`
followed by that error text, with the conversation id passed through: such
a peer failure never yields a non-2xx A2A response. -/
theorem C10_peer_failure_still_ok (known : Directory)
    (transport : PostCall → HttpResult) (content : List (String × JVal))
    (role conv text t c : String)
    (htext : dictGetD content "text" (.str "") = .str text)
    (hp : parse_a2a_request text = (some t, c)) :
    (dirLookup known t = none →
      send_message_to_agent known transport t c conv =
        (.str (notFoundMsg t (dirKeys known)), []) ∧
      (a2a_endpoint known transport ⟨content, role, conv⟩).1 =
        .ok ⟨"[Forwarded to @" ++ t ++ "]\n\n" ++ notFoundMsg t (dirKeys known),
             "text", "assistant", conv, MY_AGENT_ID⟩) ∧
    (∀ url, dirLookup known t = some url →
      transport ⟨queryUrl url, ⟨c, "agent-" ++ MY_AGENT_USERNAME⟩⟩ = .timeout →
      (send_message_to_agent known transport t c conv).1 = .str (timeoutMsg t) ∧
      (a2a_endpoint known transport ⟨content, role, conv⟩).1 =
        .ok ⟨"[Forwarded to @" ++ t ++ "]\n\n" ++ timeoutMsg t,
             "text", "assistant", conv, MY_AGENT_ID⟩) ∧
    (∀ url e, dirLookup known t = some url →
      transport ⟨queryUrl url, ⟨c, "agent-" ++ MY_AGENT_USERNAME⟩⟩ = .httpError e →
      (send_message_to_agent known transport t c conv).1 = .str (commErrorMsg t e) ∧
      (a2a_endpoint known transport ⟨content, role, conv⟩).1 =
        .ok ⟨"[Forwarded to @" ++ t ++ "]\n\n" ++ commErrorMsg t e,
             "text", "assistant", conv, MY_AGENT_ID⟩) := by
  have hne := parse_target_not_empty hp
  refine ⟨?_, ?_, ?_⟩
  · intro hd
    refine ⟨by simp [send_message_to_agent, hd], ?_⟩
    simp [a2a_endpoint, htext, hp, hne, send_message_to_agent, hd, pyLen, pyStr]
  · intro url hd htr
    refine ⟨by simp [send_message_to_agent, hd, htr, sendAnswer], ?_⟩
    simp [a2a_endpoint, htext, hp, hne, send_message_to_agent, hd, htr, sendAnswer,
      pyLen, pyStr]
  · intro url e hd htr
    refine ⟨by simp [send_message_to_agent, hd, htr, sendAnswer], ?_⟩
    simp [a2a_endpoint, htext, hp, hne, send_message_to_agent, hd, htr, sendAnswer,
      pyLen, pyStr]

theorem C10_peer_failure_still_ok_witness :
    ((a2a_endpoint [] (fun _ => .timeout)
        ⟨[("text", .str "@bob hi")], "user", "c0"⟩).1 =
      .ok ⟨"[Forwarded to @bob]\n\n" ++ notFoundMsg "bob" (dirKeys []),
           "text", "assistant", "c0", MY_AGENT_ID⟩) ∧
    ((a2a_endpoint [("bob", "x")] (fun _ => .timeout)
        ⟨[("text", .str "@bob hi")], "user", "c0"⟩).1 =
      .ok ⟨"[Forwarded to @bob]\n\n" ++ timeoutMsg "bob",
           "text", "assistant", "c0", MY_AGENT_ID⟩) :=
  ⟨((C10_peer_failure_still_ok [] (fun _ => .timeout)
      [("text", .str "@bob hi")] "user" "c0" "@bob hi" "bob" "hi" rfl
      (by decide)).1 (by decide)).2,
   ((C10_peer_failure_still_ok [("bob", "x")] (fun _ => .timeout)
      [("text", .str "@bob hi")] "user" "c0" "@bob hi" "bob" "hi" rfl
      (by decide)).2.1 "x" (by decide) rfl).2⟩

/-- C4 (counterexample): when the model's reply is valid JSON naming an
identifier absent from the catalog, the keyword fallback does not run: the
selector returns `None` even though the fallback would have matched a
catalog entry by substring. -/
theorem C4_absent_id_skips_fallback :
    select_best_agent (fun _ => some (.obj [("selected_agent_id", .str "ghost")]))
        "send an email" [⟨"mailer", "Email Sender", "can send an email for you"⟩]
        (.reply "x") = none ∧
    keywordFallback "send an email"
        [⟨"mailer", "Email Sender", "can send an email for you"⟩] =
      some ⟨"mailer", "Email Sender", "can send an email for you"⟩ := by
  constructor
  · rfl
  · decide

/-- C4 (amended): when the reply (after code-fence stripping) parses as
JSON whose `selected_agent_id` is a nonempty string naming a catalog
member, that (first such) member is selected; when parsing fails — or the
LLM call itself fails — the deterministic keyword fallback runs, and its
result, if any, is a catalog member whose lowercased description or label
contains the lowercased query; but a parsed identifier absent from the
catalog yields `None` without running the fallback. -/
theorem C4_selector_two_tier (jparse : String → Option JVal) (query r : String)
    (agentfacts : List AgentFacts) :
    (∀ selection sid a,
      jparse (stripCodeFences r) = some (.obj selection) →
      dictGetD selection "selected_agent_id" .null = .str sid →
      sid ≠ "" →
      agentfacts.find? (fun x => x.id == sid) = some a →
      select_best_agent jparse query agentfacts (.reply r) = some a ∧
        a ∈ agentfacts ∧ a.id = sid) ∧
    (agentfacts ≠ [] →
      jparse (stripCodeFences r) = none →
      select_best_agent jparse query agentfacts (.reply r) =
        keywordFallback query agentfacts) ∧
    (agentfacts ≠ [] →
      select_best_agent jparse query agentfacts .failure =
        keywordFallback query agentfacts) ∧
    (∀ selection sid,
      jparse (stripCodeFences r) = some (.obj selection) →
      dictGetD selection "selected_agent_id" .null = .str sid →
      sid ≠ "" →
      agentfacts.find? (fun x => x.id == sid) = none →
      select_best_agent jparse query agentfacts (.reply r) = none) ∧
    (∀ a, keywordFallback query agentfacts = some a →
      a ∈ agentfacts ∧
      (pyContains (pyLower a.description) (pyLower query) = true ∨
       pyContains (pyLower a.label) (pyLower query) = true)) := by
  refine ⟨?_, ?_, ?_, ?_, ?_⟩
  · intro selection sid a hparse hsel hsid hfind
    have hmem : a ∈ agentfacts := List.mem_of_find?_eq_some hfind
    have hid : a.id = sid := by
      have := List.find?_some hfind
      simpa using this
    have hnil : agentfacts.isEmpty = false := by
      cases agentfacts with
      | nil => simp at hmem
      | cons x xs => rfl
    have hsid' : sid.isEmpty = false := by
      rw [Bool.eq_false_iff]
      intro hemp
      exact hsid ((String.isEmpty_iff _).mp hemp)
    refine ⟨?_, hmem, hid⟩
    simp [select_best_agent, hnil, hparse, hsel, pyTruthy, hsid', hfind]
  · intro hne hparse
    have hnil : agentfacts.isEmpty = false := by
      cases agentfacts with
      | nil => exact absurd rfl hne
      | cons x xs => rfl
    simp [select_best_agent, hnil, hparse]
  · intro hne
    have hnil : agentfacts.isEmpty = false := by
      cases agentfacts with
      | nil => exact absurd rfl hne
      | cons x xs => rfl
    simp [select_best_agent, hnil]
  · intro selection sid hparse hsel hsid hfind
    have hsid' : sid.isEmpty = false := by
      rw [Bool.eq_false_iff]
      intro hemp
      exact hsid ((String.isEmpty_iff _).mp hemp)
    cases agentfacts with
    | nil => rfl
    | cons x xs =>
      simp [select_best_agent, hparse, hsel, pyTruthy, hsid', hfind]
  · intro a hfb
    refine ⟨List.mem_of_find?_eq_some hfb, ?_⟩
    have := List.find?_some hfb
    simpa [Bool.or_eq_true] using this

theorem C4_selector_two_tier_witness :
    select_best_agent (fun _ => some (.obj [("selected_agent_id", .str "mailer")]))
        "q" [⟨"mailer", "Email Sender", "sends email"⟩] (.reply "x") =
      some ⟨"mailer", "Email Sender", "sends email"⟩ ∧
    (⟨"mailer", "Email Sender", "sends email"⟩ : AgentFacts) ∈
      [(⟨"mailer", "Email Sender", "sends email"⟩ : AgentFacts)] ∧
    (⟨"mailer", "Email Sender", "sends email"⟩ : AgentFacts).id = "mailer" :=
  (C4_selector_two_tier (fun _ => some (.obj [("selected_agent_id", .str "mailer")]))
      "q" "x" [⟨"mailer", "Email Sender", "sends email"⟩]).1
    [("selected_agent_id", .str "mailer")] "mailer"
    ⟨"mailer", "Email Sender", "sends email"⟩ rfl rfl (by decide) (by decide)

theorem C9_refresh_preserves_unlisted_entries_witness :
    (dirLookup (fetch_agents_from_registry [("old", "http://o/a2a")]
        (.ok (.obj [("agents",
          .arr [.obj [("agent_id", .str "bob"),
                      ("endpoint", .str "http://y/a2a")]])]))).2 "old" =
      dirLookup [("old", "http://o/a2a")] "old") ∧
    (dirLookup (register_agent [("old", "http://o/a2a")] "bob" "http://y/a2a") "old" =
      dirLookup [("old", "http://o/a2a")] "old") ∧
    dirLookup (register_agent [("old", "http://o/a2a")] "bob" "u2") "bob" = some "u2" :=
  ⟨(C9_refresh_preserves_unlisted_entries [("old", "http://o/a2a")]).1 _ "old" (by decide),
   (C9_refresh_preserves_unlisted_entries [("old", "http://o/a2a")]).2.1 "bob" "http://y/a2a"
     "old" (by decide),
   (C9_refresh_preserves_unlisted_entries [("old", "http://o/a2a")]).2.2 "bob" "u2"⟩

end DayFour
